import Mathlib

/-!
Shallow embedding of `spawner` (src/src/main.rs): a process supervisor that
spawns a list of configured apps, polls them on a fixed interval, restarts
failed ones according to a per-app restart flag, and kills all live children
when a Ctrl-C flag (`HANDBRAKE`) is observed at the top of a cycle.

OS interaction (`Child::try_wait`, `Command::spawn`, `File::create`, the
ambient environment) is represented by explicit oracle inputs per handle and
per cycle; everything else is translated directly from the Rust source.
-/

namespace Spawner

/-- `struct App` from main.rs: one `[[app]]` entry of the TOML manifest.
The `env` HashMap is modelled as an association list. -/
structure App where
  name : Option String
  path : String
  args : Option (List String)
  env : Option (List (String × String))
  restart : Option Bool
  stdout : Option String
deriving Repr, DecidableEq

/-- `struct Config` from main.rs. `interval` is a `u64` (seconds). -/
structure Config where
  interval : Option Nat
  apps : List App
deriving Repr, DecidableEq

/-- Modulus of Rust `u64` arithmetic. -/
def U64MOD : Nat := 2 ^ 64

/-- `config.interval.map_or(5000, |x| x * 1000)` (main.rs:130); the
multiplication is `u64`, hence reduced modulo `2^64` (release-mode wrap). -/
def intervalMs (config : Config) : Nat :=
  match config.interval with
  | none => 5000
  | some x => x * 1000 % U64MOD

/-- A live OS child process: all the supervisor reads from it is its PID. -/
structure Child where
  pid : Nat
deriving Repr, DecidableEq

/-- `std::process::ExitStatus`: `code()` is `None` exactly when the process
was killed by a signal, in which case `signal()` may name the signal. -/
structure ExitStatus where
  code : Option Int
  signal : Option Int
deriving Repr, DecidableEq

/-- Oracle outcome of `child.try_wait()` (main.rs:160): `Ok(None)` while
running, `Ok(Some(status))` on termination, `Err` on an OS error. -/
inductive TryWait where
  | ok (st : Option ExitStatus)
  | err (msg : String)
deriving Repr, DecidableEq

/-- The retained `std::process::Command` launch descriptor: program plus the
configuration applied to it in `start` (main.rs:99-118). -/
structure CommandM where
  program : String
  args : List String
  envVars : List (String × String)
  stdoutRedirect : Option String
  arg0 : Option String
deriving Repr, DecidableEq

/-- `struct Cmd` (main.rs:43-47): the retained command, the optional live
child (`Arc<Mutex<Option<Child>>>`), and the app it came from. -/
structure Handle where
  command : CommandM
  child : Option Child
  app : App
deriving Repr, DecidableEq

/-- Observable actions of the supervisor, tagged by call site:
`pollLog` = the exit-detection printlns (main.rs:164,168,173),
`status` = the per-handle status println (main.rs:196),
`kill` = `child.kill()` in the shutdown path (main.rs:137),
`spawned` = the "starting ... PID" println in `start` (main.rs:121),
`slept` = the per-cycle `sleep` (main.rs:144). -/
inductive Event where
  | pollLog (s : String)
  | status (s : String)
  | kill (pid : Nat)
  | spawned (path : String) (pid : Nat)
  | slept (ms : Nat)
deriving Repr, DecidableEq

/-- How a poll cycle can abort: `spawnError` is the `command.spawn()?`
propagation (main.rs:192), `panic` the `Err(e) => panic!` (main.rs:184). -/
inductive Abort where
  | spawnError (msg : String)
  | panic (msg : String)
deriving Repr, DecidableEq

/-- Per-handle, per-cycle OS oracle: the `try_wait` outcome for the live
child (if any) and the outcome of `command.spawn()` were it invoked. -/
structure HandleEnv where
  tryWait : TryWait
  spawn : Except String Child
deriving Repr

/-- `x.signal().map_or("unknown".to_string(), |s| s.to_string())`
(main.rs:175). -/
def signalText (st : ExitStatus) : String :=
  match st.signal with
  | none => "unknown"
  | some s => toString s

/-- The `child.as_mut().map_or((false, false), |x| match x.try_wait() ...)`
computation (main.rs:157-185), yielding the `(running, restart)` pair and
the printlns it performs; `Except.error` is the `panic!` arm. -/
def pollChild (child : Option Child) (tw : TryWait) :
    Except String (Bool × Bool × List Event) :=
  match child with
  | none => .ok (false, false, [])
  | some _ =>
    match tw with
    | .ok (some st) =>
      match st.code with
      | some code =>
        if code = 0 then
          .ok (false, false, [.pollLog "exited without error"])
        else
          .ok (false, true, [.pollLog ("exited with code: " ++ toString code)])
      | none =>
        .ok (false, true, [.pollLog ("killed by signal: " ++ signalText st)])
    | .ok none => .ok (true, false, [])
    | .err e => .error e

/-- `child.as_ref().map_or(0, |x| x.id())` (main.rs:200). -/
def childPid (child : Option Child) : Nat :=
  match child with
  | none => 0
  | some c => c.pid

/-- The per-handle status println (main.rs:196-204): the program name, then
either `running as PID: p` or `not running`, chosen by the `running` flag
computed before any restart. -/
def statusLine (program : String) (running : Bool) (child : Option Child) :
    String :=
  program ++ " " ++
    (if running then "running as PID: " ++ toString (childPid child)
     else "not running")

/-- `if !running { child.take(); }` (main.rs:187-189). -/
def afterTake (child : Option Child) (running : Bool) : Option Child :=
  if running then child else none

/-- Result of one handle's slice of the poll loop body: the final child
slot, the events performed, whether `command.spawn()` succeeded
(`respawned`), and the abort (if any) that ends the whole loop. -/
structure StepOut where
  child : Option Child
  events : List Event
  respawned : Bool
  abort : Option Abort
deriving Repr, DecidableEq

/-- The body of the per-handle `for` loop in `behold` (main.rs:146-205):
poll, take on exit, conditional respawn, status println. -/
def handleStep (app : App) (command : CommandM) (child : Option Child)
    (henv : HandleEnv) : StepOut :=
  match pollChild child henv.tryWait with
  | .error e => ⟨child, [], false, some (Abort.panic e)⟩
  | .ok (running, restartFlag, logs) =>
    let child1 := afterTake child running
    if restartFlag && app.restart.getD true then
      match henv.spawn with
      | .error e => ⟨child1, logs, false, some (Abort.spawnError e)⟩
      | .ok newc =>
        ⟨some newc,
          logs ++ [Event.status (statusLine command.program running (some newc))],
          true, none⟩
    else
      ⟨child1,
        logs ++ [Event.status (statusLine command.program running child1)],
        false, none⟩

/-- Result of the whole `for` loop over the handles in one cycle. -/
structure CycleOut where
  handles : List Handle
  events : List Event
  abort : Option Abort
deriving Repr, DecidableEq

/-- The `for Cmd { .. } in cmds.iter()` loop of one cycle (main.rs:146-205),
each handle paired with its OS oracle for this cycle; an abort (`panic!` or
`spawn()?`) stops the iteration, leaving later handles untouched. -/
def pollHandles : List (Handle × HandleEnv) → CycleOut
  | [] => ⟨[], [], none⟩
  | (h, henv) :: rest =>
    let s := handleStep h.app h.command h.child henv
    let h2 : Handle := { h with child := s.child }
    match s.abort with
    | some a => ⟨h2 :: rest.map Prod.fst, s.events, some a⟩
    | none =>
      let c := pollHandles rest
      ⟨h2 :: c.handles, s.events ++ c.events, c.abort⟩

/-- The shutdown body (main.rs:134-139): `if let Some(child) = child.as_mut()
{ child.kill().unwrap() }` — a kill request exactly when a live reference
exists, a silent no-op otherwise. -/
def terminate (child : Option Child) : List Event :=
  match child with
  | none => []
  | some c => [Event.kill c.pid]

/-- All kill requests issued by the shutdown path, in handle order. -/
def shutdownEvents (handles : List Handle) : List Event :=
  (handles.map (fun h => terminate h.child)).flatten

/-- Outcome of the `behold` loop over a finite schedule of cycles:
`stopped` = HANDBRAKE observed, kills issued, `break`;
`aborted` = a cycle ended in `panic!` or a propagated spawn error;
`fuelOut` = the schedule ran out with the loop still going. -/
inductive RunResult where
  | stopped (events : List Event)
  | aborted (a : Abort) (handles : List Handle) (events : List Event)
  | fuelOut (handles : List Handle) (events : List Event)
deriving Repr, DecidableEq

/-- The `behold` loop (main.rs:129-209) over a finite schedule, each cycle
supplying the HANDBRAKE value observed at the top and the per-handle OS
oracles. `interval` is `intervalMs config`. -/
def run (interval : Nat) : List (Bool × List HandleEnv) → List Handle →
    RunResult
  | [], hs => .fuelOut hs []
  | (hb, envs) :: rest, hs =>
    if hb then .stopped (shutdownEvents hs)
    else
      let c := pollHandles (hs.zip envs)
      match c.abort with
      | some a => .aborted a c.handles (Event.slept interval :: c.events)
      | none =>
        match run interval rest c.handles with
        | .stopped evs => .stopped (Event.slept interval :: (c.events ++ evs))
        | .aborted a hs2 evs =>
            .aborted a hs2 (Event.slept interval :: (c.events ++ evs))
        | .fuelOut hs2 evs =>
            .fuelOut hs2 (Event.slept interval :: (c.events ++ evs))

/-- A shell variable-name character (`[[:word:]]`). -/
def isVarChar (c : Char) : Bool := c.isAlphanum || c == '_'

/-- Modelled from the spec: the expansion engine of the external
`shellexpand` crate's `env` function (main.rs:112 delegates to it; the crate
is not part of this repository). Shell-style references `$VAR` and `${VAR}`
are resolved against the ambient environment `amb`; a reference to an unset
variable, or an unclosed `${`, is a lookup error (`none`), never an empty
substitution; a `$` not followed by a variable name is kept literally.
The fuel is always at least the character count plus one, so it never runs
out. -/
def expandCharsF (amb : String → Option String) :
    Nat → List Char → Option (List Char)
  | _, [] => some []
  | 0, _ :: _ => none
  | fuel + 1, c :: rest =>
    if c = '$' then
      match rest with
      | '{' :: rest2 =>
        let name := rest2.takeWhile (fun d => d ≠ '}')
        match rest2.dropWhile (fun d => d ≠ '}') with
        | '}' :: rest3 =>
          match amb (String.mk name) with
          | none => none
          | some v =>
            match expandCharsF amb fuel rest3 with
            | none => none
            | some tail => some (v.data ++ tail)
        | _ => none
      | _ =>
        let name := rest.takeWhile isVarChar
        if name.isEmpty then
          match expandCharsF amb fuel rest with
          | none => none
          | some tail => some ('$' :: tail)
        else
          match amb (String.mk name) with
          | none => none
          | some v =>
            match expandCharsF amb fuel (rest.drop name.length) with
            | none => none
            | some tail => some (v.data ++ tail)
    else
      match expandCharsF amb fuel rest with
      | none => none
      | some tail => some (c :: tail)

/-- Modelled from the spec: `shellexpand::env(v)` — `none` is the crate's
`LookupError`, which main.rs:112 `.unwrap()`s into a panic. -/
def expandEnv (amb : String → Option String) (s : String) : Option String :=
  match expandCharsF amb (s.data.length + 1) s.data with
  | none => none
  | some cs => some (String.mk cs)

/-- `env.iter().map(|(k, v)| (k, shellexpand::env(v).unwrap()...))`
(main.rs:110-113): every value expanded; the first failing value panics. -/
def expandPairs (amb : String → Option String) :
    List (String × String) → Option (List (String × String))
  | [] => some []
  | (k, v) :: rest =>
    match expandEnv amb v with
    | none => none
    | some v2 =>
      match expandPairs amb rest with
      | none => none
      | some rest2 => some ((k, v2) :: rest2)

/-- Per-app OS oracle for `start`: the outcome of `File::create` for the
stdout redirection target (were it requested) and of `command.spawn()`. -/
structure AppEnv where
  fileCreate : Except String Unit
  spawn : Except String Child
deriving Repr

/-- How startup can abort: `ioError` is a `?`-propagated error
(`File::create` at main.rs:101, `command.spawn()` at main.rs:120);
`panic` is the `.unwrap()` on a failed expansion (main.rs:112). -/
inductive StartAbort where
  | ioError (msg : String)
  | panic (msg : String)
deriving Repr, DecidableEq

/-- The stdout-redirection step (main.rs:100-103): `File::create(out)?` is
attempted exactly when `app.stdout` is set. -/
def stdoutGate (app : App) (ae : AppEnv) : Except String Unit :=
  match app.stdout with
  | some _ => ae.fileCreate
  | none => .ok ()

/-- The env step (main.rs:109-114): when `app.env` is set, every value is
expanded; `none` is the `.unwrap()` panic on the first failing value. -/
def envGate (amb : String → Option String) (app : App) :
    Option (List (String × String)) :=
  match app.env with
  | none => some []
  | some kvs => expandPairs amb kvs

/-- The launch descriptor built from the app (main.rs:99-118), given its
already-expanded environment. -/
def buildCommand (app : App) (envL : List (String × String)) : CommandM :=
  { program := app.path
    args := app.args.getD []
    envVars := envL
    stdoutRedirect := app.stdout
    arg0 := app.name.map (fun n => "[spawner: " ++ n ++ "] -> " ++ app.path) }

/-- One iteration of the `for app in x.apps` loop in `start`
(main.rs:98-124): build the command (stdout redirection, args, expanded env,
arg0 tag), spawn it, and log the PID. -/
def startApp (amb : String → Option String) (app : App) (ae : AppEnv) :
    Except StartAbort (Handle × Event) :=
  match stdoutGate app ae with
  | .error e => .error (.ioError e)
  | .ok _ =>
    match envGate amb app with
    | none => .error (.panic "called Result::unwrap on an Err value: LookupError")
    | some envL =>
      match ae.spawn with
      | .error e => .error (.ioError e)
      | .ok c =>
        .ok (⟨buildCommand app envL, some c, app⟩, Event.spawned app.path c.pid)

/-- Outcome of `start` (main.rs:95-127): either every app spawned, or the
first failure aborted the whole startup with the earlier spawn events. -/
inductive StartResult where
  | ok (handles : List Handle) (events : List Event)
  | failed (a : StartAbort) (events : List Event)
deriving Repr, DecidableEq

/-- `fn start` (main.rs:95-127): spawn every app in manifest order; any
failure propagates immediately, so there is no partial-success mode. -/
def start (amb : String → Option String) :
    List (App × AppEnv) → StartResult
  | [] => .ok [] []
  | (app, ae) :: rest =>
    match startApp amb app ae with
    | .error a => .failed a []
    | .ok (h, ev) =>
      match start amb rest with
      | .ok hs evs => .ok (h :: hs) (ev :: evs)
      | .failed a evs => .failed a (ev :: evs)

/-- Outcome of `fn main` (main.rs:59-74) after config parsing: either
`start` failed before any supervision, or the `behold` loop ran. -/
inductive MainResult where
  | startFailed (a : StartAbort) (events : List Event)
  | ran (startEvents : List Event) (r : RunResult)
deriving Repr, DecidableEq

/-- `main`'s `let cmds = start(&config)?; behold(&config, &cmds)?`
(main.rs:68-71): `start` errors short-circuit before the loop begins. -/
def mainModel (amb : String → Option String) (config : Config)
    (appEnvs : List AppEnv) (schedule : List (Bool × List HandleEnv)) :
    MainResult :=
  match start amb (config.apps.zip appEnvs) with
  | .failed a evs => .startFailed a evs
  | .ok hs evs => .ran evs (run (intervalMs config) schedule hs)

/-- Recognizes the per-handle status println among the events. -/
def isStatus : Event → Bool
  | .status _ => true
  | _ => false

/-- A startup oracle on which `start` must fail for this app: the stdout
redirection target cannot be created (when redirection is requested), or
the spawn itself fails. -/
def badAppEnv (app : App) (ae : AppEnv) : Prop :=
  (app.stdout.isSome = true ∧ ∃ e, ae.fileCreate = .error e) ∨
  (∃ e, ae.spawn = .error e)

/-- Concrete fixture: an app with every optional field unset. -/
def xApp : App := ⟨none, "/bin/x", none, none, none, none⟩

/-- Concrete fixture: the launch descriptor `start` builds for `xApp`. -/
def xCmd : CommandM := ⟨"/bin/x", [], [], none, none⟩

/-- Concrete fixture: an ambient environment where only HOME is set. -/
def xAmb : String → Option String :=
  fun k => if k = "HOME" then some "/home/u" else none

/-- Concrete fixture: an app whose env references `$HOME`. -/
def xEnvApp : App :=
  ⟨none, "/bin/x", none, some [("P", "$HOME/bin")], none, none⟩

/-- Concrete fixture: a startup oracle where everything succeeds. -/
def xOkEnv : AppEnv := ⟨.ok (), .ok ⟨3⟩⟩

/-! ## Helper lemmas -/

theorem pollChild_logs_pollLog (child : Option Child) (tw : TryWait)
    (r b : Bool) (logs : List Event)
    (hp : pollChild child tw = .ok (r, b, logs)) :
    ∀ e ∈ logs, ∃ s, e = Event.pollLog s := by
  unfold pollChild at hp
  split at hp
  · simp at hp
    obtain ⟨rfl, rfl, rfl⟩ := hp
    simp
  · split at hp
    · split at hp
      · split at hp <;>
        · simp at hp
          obtain ⟨rfl, rfl, rfl⟩ := hp
          simp
      · simp at hp
        obtain ⟨rfl, rfl, rfl⟩ := hp
        simp
    · simp at hp
      obtain ⟨rfl, rfl, rfl⟩ := hp
      simp
    · exact absurd hp (by simp)

theorem handleStep_events_pollLog_or_status (app : App) (command : CommandM)
    (child : Option Child) (henv : HandleEnv) :
    ∀ e ∈ (handleStep app command child henv).events,
      (∃ s, e = Event.pollLog s) ∨ ∃ s, e = Event.status s := by
  unfold handleStep
  split
  · simp
  case _ r b logs hp =>
    have hlogs := pollChild_logs_pollLog child henv.tryWait r b logs hp
    split
    · split
      · intro e he
        exact Or.inl (hlogs e he)
      · intro e he
        simp at he
        rcases he with he | he
        · exact Or.inl (hlogs e he)
        · exact Or.inr ⟨_, he⟩
    · intro e he
      simp at he
      rcases he with he | he
      · exact Or.inl (hlogs e he)
      · exact Or.inr ⟨_, he⟩

theorem handleStep_no_kill (app : App) (command : CommandM)
    (child : Option Child) (henv : HandleEnv) (pid : Nat) :
    Event.kill pid ∉ (handleStep app command child henv).events := by
  intro hmem
  rcases handleStep_events_pollLog_or_status app command child henv _ hmem with
    ⟨s, hs⟩ | ⟨s, hs⟩ <;> cases hs

theorem pollHandles_no_kill (pairs : List (Handle × HandleEnv)) (pid : Nat) :
    Event.kill pid ∉ (pollHandles pairs).events := by
  induction pairs with
  | nil => simp [pollHandles]
  | cons p rest ih =>
    obtain ⟨h, henv⟩ := p
    cases ha : (handleStep h.app h.command h.child henv).abort with
    | some a =>
      simp only [pollHandles, ha]
      exact handleStep_no_kill h.app h.command h.child henv pid
    | none =>
      simp only [pollHandles, ha]
      intro hmem
      rcases List.mem_append.mp hmem with hmem | hmem
      · exact handleStep_no_kill h.app h.command h.child henv pid hmem
      · exact ih hmem

theorem shutdownEvents_eq_filterMap (hs : List Handle) :
    shutdownEvents hs =
      hs.filterMap (fun h => h.child.map (fun c => Event.kill c.pid)) := by
  induction hs with
  | nil => rfl
  | cons h t ih =>
    cases hc : h.child <;>
      simp [shutdownEvents, terminate, hc, List.filterMap_cons] at * <;>
      simpa [shutdownEvents] using ih

theorem handleStep_ok_events (app : App) (command : CommandM)
    (child : Option Child) (henv : HandleEnv)
    (hok : (handleStep app command child henv).abort = none) :
    ∃ r b logs, pollChild child henv.tryWait = .ok (r, b, logs) ∧
      (handleStep app command child henv).events =
        logs ++ [Event.status (statusLine command.program r
          (handleStep app command child henv).child)] := by
  cases hp : pollChild child henv.tryWait with
  | error e => exact absurd hok (by simp [handleStep, hp])
  | ok trip =>
    obtain ⟨r, b, logs⟩ := trip
    by_cases hflag : (b && app.restart.getD true) = true
    · cases hsp : henv.spawn with
      | error e => exact absurd hok (by simp [handleStep, hp, hflag, hsp])
      | ok nc => exact ⟨r, b, logs, rfl, by simp [handleStep, hp, hflag, hsp]⟩
    · exact ⟨r, b, logs, rfl, by simp [handleStep, hp, hflag]⟩

theorem handleStep_status_count (app : App) (command : CommandM)
    (child : Option Child) (henv : HandleEnv)
    (hok : (handleStep app command child henv).abort = none) :
    ((handleStep app command child henv).events.filter isStatus).length = 1 := by
  obtain ⟨r, b, logs, hp, hev⟩ := handleStep_ok_events app command child henv hok
  have hlogs : logs.filter isStatus = [] := by
    rw [List.filter_eq_nil_iff]
    intro e he
    rcases pollChild_logs_pollLog child henv.tryWait r b logs hp e he with ⟨s, rfl⟩
    simp [isStatus]
  rw [hev, List.filter_append, hlogs]
  simp [isStatus]

theorem pollHandles_status_count (pairs : List (Handle × HandleEnv))
    (hok : (pollHandles pairs).abort = none) :
    ((pollHandles pairs).events.filter isStatus).length = pairs.length := by
  induction pairs with
  | nil => simp [pollHandles]
  | cons p rest ih =>
    obtain ⟨h, henv⟩ := p
    cases ha : (handleStep h.app h.command h.child henv).abort with
    | some a =>
      rw [show pollHandles ((h, henv) :: rest) =
        ⟨{ h with child := (handleStep h.app h.command h.child henv).child } ::
          rest.map Prod.fst,
          (handleStep h.app h.command h.child henv).events, some a⟩ by
        simp only [pollHandles, ha]] at hok
      exact absurd hok (by simp)
    | none =>
      simp only [pollHandles, ha] at hok ⊢
      rw [List.filter_append, List.length_append,
        handleStep_status_count h.app h.command h.child henv ha, ih hok]
      simp [Nat.add_comm]

theorem expandPairs_none_of_mem (amb : String → Option String)
    (kvs : List (String × String)) (k v : String)
    (hmem : (k, v) ∈ kvs) (hfail : expandEnv amb v = none) :
    expandPairs amb kvs = none := by
  induction kvs with
  | nil => simp at hmem
  | cons p rest ih =>
    obtain ⟨pk, pv⟩ := p
    rcases List.mem_cons.mp hmem with heq | hmem2
    · injection heq with h1 h2
      subst h1; subst h2
      simp [expandPairs, hfail]
    · cases he : expandEnv amb pv with
      | none => simp [expandPairs, he]
      | some v2 => simp [expandPairs, he, ih hmem2]

theorem startApp_ok_inv (amb : String → Option String) (app : App)
    (ae : AppEnv) (h : Handle) (ev : Event)
    (hok : startApp amb app ae = .ok (h, ev)) :
    (app.stdout.isSome = true → ae.fileCreate = .ok ()) ∧
    (∃ c, ae.spawn = .ok c ∧ h.child = some c) ∧
    ∀ kvs, app.env = some kvs →
      expandPairs amb kvs = some h.command.envVars := by
  cases hg : stdoutGate app ae with
  | error e => exact absurd hok (by simp [startApp, hg])
  | ok u =>
    cases he : envGate amb app with
    | none => exact absurd hok (by simp [startApp, hg, he])
    | some envL =>
      cases hsp : ae.spawn with
      | error e => exact absurd hok (by simp [startApp, hg, he, hsp])
      | ok c =>
        rw [show startApp amb app ae =
            .ok (⟨buildCommand app envL, some c, app⟩, Event.spawned app.path c.pid) by
          simp [startApp, hg, he, hsp]] at hok
        obtain ⟨rfl, rfl⟩ : h = ⟨buildCommand app envL, some c, app⟩ ∧
            ev = Event.spawned app.path c.pid := by
          constructor <;> [exact (congrArg Prod.fst (by injection hok)).symm;
            exact (congrArg Prod.snd (by injection hok)).symm]
        refine ⟨?_, ⟨c, rfl, rfl⟩, ?_⟩
        · intro hso
          cases hst : app.stdout with
          | none => rw [hst] at hso; simp at hso
          | some o =>
            rw [stdoutGate, hst] at hg
            cases u
            exact hg
        · intro kvs hkvs
          rw [envGate, hkvs] at he
          simpa [buildCommand] using he

theorem startApp_bad_not_ok (amb : String → Option String) (app : App)
    (ae : AppEnv) (hbad : badAppEnv app ae) (h : Handle) (ev : Event) :
    startApp amb app ae ≠ .ok (h, ev) := by
  intro hok
  obtain ⟨h1, ⟨c, hc, _⟩, _⟩ := startApp_ok_inv amb app ae h ev hok
  rcases hbad with ⟨hso, e, hfc⟩ | ⟨e, hsp⟩
  · rw [h1 hso] at hfc
    cases hfc
  · rw [hsp] at hc
    cases hc

theorem start_bad_not_ok (amb : String → Option String)
    (pairs : List (App × AppEnv))
    (hbad : ∃ p ∈ pairs, badAppEnv p.1 p.2) (hs : List Handle)
    (evs : List Event) : start amb pairs ≠ .ok hs evs := by
  induction pairs generalizing hs evs with
  | nil => simp at hbad
  | cons p rest ih =>
    obtain ⟨app, ae⟩ := p
    intro hok
    obtain ⟨q, hq, hbq⟩ := hbad
    cases hsa : startApp amb app ae with
    | error a => rw [show start amb ((app, ae) :: rest) = .failed a [] by
        simp [start, hsa]] at hok; cases hok
    | ok pr =>
      obtain ⟨h, ev⟩ := pr
      rcases List.mem_cons.mp hq with rfl | hq2
      · exact startApp_bad_not_ok amb app ae hbq h ev hsa
      · cases hrest : start amb rest with
        | failed a evs2 =>
          rw [show start amb ((app, ae) :: rest) = .failed a (ev :: evs2) by
            simp [start, hsa, hrest]] at hok
          cases hok
        | ok hs2 evs2 =>
          exact ih ⟨q, hq2, hbq⟩ hs2 evs2 hrest

/-! ## Claim theorems -/

/-- C1: on a poll cycle, once the non-blocking exit check detects
termination, the handle is re-spawned if and only if the exit status
carried a non-zero code or no code at all (killed by a signal) and the
spec's restart flag, defaulting to true when unset, is true; a clean
code-0 exit clears the handle and never re-spawns, regardless of the
flag. -/
theorem restart_policy_iff (app : App) (command : CommandM) (c : Child)
    (henv : HandleEnv) (st : ExitStatus) (nc : Child)
    (htw : henv.tryWait = .ok (some st)) (hsp : henv.spawn = .ok nc) :
    ((handleStep app command (some c) henv).respawned = true ↔
      st.code ≠ some 0 ∧ app.restart.getD true = true) ∧
    (st.code = some 0 →
      (handleStep app command (some c) henv).child = none ∧
      (handleStep app command (some c) henv).respawned = false) := by
  cases hc : st.code with
  | none =>
    cases hflag : app.restart.getD true with
    | true => simp [handleStep, pollChild, htw, hc, hflag, hsp]
    | false => simp [handleStep, pollChild, htw, hc, hflag, afterTake]
  | some code =>
    by_cases h0 : code = 0
    · subst h0
      simp [handleStep, pollChild, htw, hc, afterTake]
    · cases hflag : app.restart.getD true with
      | true => simp [handleStep, pollChild, htw, hc, h0, hflag, hsp]
      | false => simp [handleStep, pollChild, htw, hc, h0, hflag, afterTake]

/-- C1 witness: a concrete handle that exited with code 1 under the default
restart flag. -/
theorem restart_policy_iff_witness :
    ((handleStep xApp xCmd (some ⟨7⟩)
        ⟨.ok (some ⟨some 1, none⟩), .ok ⟨9⟩⟩).respawned = true ↔
      (⟨some 1, none⟩ : ExitStatus).code ≠ some 0 ∧
        xApp.restart.getD true = true) ∧
    ((⟨some 1, none⟩ : ExitStatus).code = some 0 →
      (handleStep xApp xCmd (some ⟨7⟩)
          ⟨.ok (some ⟨some 1, none⟩), .ok ⟨9⟩⟩).child = none ∧
      (handleStep xApp xCmd (some ⟨7⟩)
          ⟨.ok (some ⟨some 1, none⟩), .ok ⟨9⟩⟩).respawned = false) :=
  restart_policy_iff xApp xCmd ⟨7⟩ ⟨.ok (some ⟨some 1, none⟩), .ok ⟨9⟩⟩
    ⟨some 1, none⟩ ⟨9⟩ rfl rfl

/-- C2: when the HANDBRAKE flag is observed true at the top of a cycle, the
loop sends a kill to exactly the handles currently holding a live child (in
order) and stops; the stopped run performs no spawn after the observation. -/
theorem shutdown_stops_and_kills (interval : Nat) (envs : List HandleEnv)
    (rest : List (Bool × List HandleEnv)) (hs : List Handle) :
    run interval ((true, envs) :: rest) hs = .stopped (shutdownEvents hs) ∧
    shutdownEvents hs =
      hs.filterMap (fun h => h.child.map (fun c => Event.kill c.pid)) ∧
    ∀ p pid, Event.spawned p pid ∉ shutdownEvents hs := by
  refine ⟨by simp [run], shutdownEvents_eq_filterMap hs, ?_⟩
  intro p pid hmem
  rw [shutdownEvents_eq_filterMap] at hmem
  simp [List.mem_filterMap, Option.map_eq_some'] at hmem

/-- C2 witness: a two-handle supervisor, one live and one dead, at a cycle
that observes the flag. -/
theorem shutdown_stops_and_kills_witness :
    run 5000 [(true, [])] [⟨xCmd, some ⟨7⟩, xApp⟩, ⟨xCmd, none, xApp⟩] =
      .stopped [Event.kill 7] := by
  have h :=
    (shutdown_stops_and_kills 5000 [] []
      [⟨xCmd, some ⟨7⟩, xApp⟩, ⟨xCmd, none, xApp⟩]).1
  simpa [shutdownEvents, terminate] using h

/-- C3: the child slot is a single optional reference; when the poll
detects an exit, the slot is cleared (`take`) before any replacement, so
the resulting slot is either empty or exactly the one newly spawned child,
never the old one alongside a new one. -/
theorem single_live_reference (app : App) (command : CommandM) (c : Child)
    (henv : HandleEnv) (st : ExitStatus)
    (htw : henv.tryWait = .ok (some st)) :
    afterTake (some c) false = none ∧
    ((handleStep app command (some c) henv).respawned = false →
      (handleStep app command (some c) henv).child = none) ∧
    ∀ nc, (handleStep app command (some c) henv).child = some nc →
      henv.spawn = .ok nc ∧
        (handleStep app command (some c) henv).respawned = true := by
  have hshape :
      ((handleStep app command (some c) henv).child = none ∧
        (handleStep app command (some c) henv).respawned = false) ∨
      ∃ nc, henv.spawn = .ok nc ∧
        (handleStep app command (some c) henv).child = some nc ∧
        (handleStep app command (some c) henv).respawned = true := by
    cases hc : st.code with
    | none =>
      cases hflag : app.restart.getD true with
      | false => left; simp [handleStep, pollChild, htw, hc, hflag, afterTake]
      | true =>
        cases hsp : henv.spawn with
        | error e => left; simp [handleStep, pollChild, htw, hc, hflag, hsp, afterTake]
        | ok nc =>
          right
          exact ⟨nc, rfl, by simp [handleStep, pollChild, htw, hc, hflag, hsp]⟩
    | some code =>
      by_cases h0 : code = 0
      · subst h0
        left
        simp [handleStep, pollChild, htw, hc, afterTake]
      · cases hflag : app.restart.getD true with
        | false => left; simp [handleStep, pollChild, htw, hc, h0, hflag, afterTake]
        | true =>
          cases hsp : henv.spawn with
          | error e =>
            left; simp [handleStep, pollChild, htw, hc, h0, hflag, hsp, afterTake]
          | ok nc =>
            right
            exact ⟨nc, rfl, by simp [handleStep, pollChild, htw, hc, h0, hflag, hsp]⟩
  refine ⟨rfl, ?_, ?_⟩
  · intro hresp
    rcases hshape with ⟨h1, _⟩ | ⟨nc, _, _, h3⟩
    · exact h1
    · rw [h3] at hresp
      cases hresp
  · intro nc hc2
    rcases hshape with ⟨h1, _⟩ | ⟨nc2, hsp2, hc3, hr⟩
    · rw [h1] at hc2
      cases hc2
    · rw [hc3] at hc2
      injection hc2 with h
      subst h
      exact ⟨hsp2, hr⟩

/-- C3 witness: a clean exit clears the slot of a concrete handle. -/
theorem single_live_reference_witness :
    (handleStep xApp xCmd (some ⟨7⟩)
      ⟨.ok (some ⟨some 0, none⟩), .ok ⟨9⟩⟩).child = none :=
  (single_live_reference xApp xCmd ⟨7⟩ ⟨.ok (some ⟨some 0, none⟩), .ok ⟨9⟩⟩
    ⟨some 0, none⟩ rfl).2.1 (by decide)

/-- C7: terminating a handle with no live reference is a silent no-op — the
kill request is issued exactly when a live reference exists. -/
theorem terminate_dead_noop :
    terminate none = [] ∧ ∀ c : Child, terminate (some c) = [Event.kill c.pid] :=
  ⟨rfl, fun _ => rfl⟩

/-- C8 counterexample: the claim "the sleep is exactly the configured
interval times 1000 ms" fails at `u64::MAX` seconds, where the `u64`
multiplication wraps modulo `2^64`. -/
theorem interval_wrap_counterexample :
    intervalMs ⟨some (2 ^ 64 - 1), []⟩ ≠ (2 ^ 64 - 1) * 1000 := by
  decide

/-- C8 amended: the per-cycle sleep is 5000 ms when no interval is
configured, and otherwise the configured whole-second interval times 1000,
reduced modulo `2^64` by the `u64` multiplication — which is exactly
`interval * 1000` whenever that product fits in a `u64`. -/
theorem interval_ms_spec (c : Config) :
    (c.interval = none → intervalMs c = 5000) ∧
    (∀ x, c.interval = some x → x * 1000 < 2 ^ 64 → intervalMs c = x * 1000) ∧
    (∀ x, c.interval = some x → intervalMs c = x * 1000 % 2 ^ 64) := by
  refine ⟨fun h => by simp [intervalMs, h], fun x h hlt => ?_,
    fun x h => by simp [intervalMs, h, U64MOD]⟩
  simp only [intervalMs, h, U64MOD]
  exact Nat.mod_eq_of_lt hlt

/-- C8 witness: a 2-second interval sleeps 2000 ms. -/
theorem interval_ms_spec_witness : intervalMs ⟨some 2, []⟩ = 2000 :=
  (interval_ms_spec ⟨some 2, []⟩).2.1 2 rfl (by norm_num)

/-- C10: an OS error from the non-blocking exit check panics: the child
slot is left untouched, no restart-policy decision is taken, no events are
emitted, and the abort propagates through the cycle, ending the run with
every later handle untouched. -/
theorem try_wait_error_panics (app : App) (command : CommandM) (c : Child)
    (henv : HandleEnv) (e : String) (htw : henv.tryWait = .err e) :
    handleStep app command (some c) henv =
      ⟨some c, [], false, some (Abort.panic e)⟩ ∧
    ∀ rest : List (Handle × HandleEnv),
      pollHandles ((⟨command, some c, app⟩, henv) :: rest) =
        ⟨⟨command, some c, app⟩ :: rest.map Prod.fst, [],
          some (Abort.panic e)⟩ := by
  have h1 : handleStep app command (some c) henv =
      ⟨some c, [], false, some (Abort.panic e)⟩ := by
    simp [handleStep, pollChild, htw]
  exact ⟨h1, fun rest => by simp [pollHandles, h1]⟩

/-- C10 witness: a concrete handle whose `try_wait` reports an OS error. -/
theorem try_wait_error_panics_witness :
    handleStep xApp xCmd (some ⟨7⟩) ⟨.err "EIO", .ok ⟨9⟩⟩ =
      ⟨some ⟨7⟩, [], false, some (Abort.panic "EIO")⟩ :=
  (try_wait_error_panics xApp xCmd ⟨7⟩ ⟨.err "EIO", .ok ⟨9⟩⟩ "EIO" rfl).1

/-- C4: a failed re-spawn during restart is fatal and not retried: the
error propagates, the cycle performs no kill or cleanup, every handle after
the failing one keeps its previous state, and `run` ends `.aborted`. -/
theorem respawn_failure_fatal (h : Handle) (henv : HandleEnv)
    (rest : List (Handle × HandleEnv)) (a : Abort)
    (hab : (handleStep h.app h.command h.child henv).abort = some a) :
    pollHandles ((h, henv) :: rest) =
      ⟨{ h with child := (handleStep h.app h.command h.child henv).child } ::
          rest.map Prod.fst,
        (handleStep h.app h.command h.child henv).events, some a⟩ ∧
    (∀ pid pairs, Event.kill pid ∉ (pollHandles pairs).events) ∧
    ∀ interval envs sched hs,
      (pollHandles (hs.zip envs)).abort = some a →
      run interval ((false, envs) :: sched) hs =
        .aborted a (pollHandles (hs.zip envs)).handles
          (Event.slept interval :: (pollHandles (hs.zip envs)).events) := by
  refine ⟨by simp only [pollHandles, hab],
    fun pid pairs => pollHandles_no_kill pairs pid, ?_⟩
  intro interval envs sched hs h2
  simp [run, h2]

/-- C4 witness: a handle whose restart spawn fails, followed by a
still-running handle that is left untouched. -/
theorem respawn_failure_fatal_witness :
    pollHandles
      [(⟨xCmd, some ⟨7⟩, xApp⟩, ⟨.ok (some ⟨some 1, none⟩), .error "ENOENT"⟩),
       (⟨xCmd, some ⟨8⟩, xApp⟩, ⟨.ok none, .ok ⟨9⟩⟩)] =
      ⟨[⟨xCmd, none, xApp⟩, ⟨xCmd, some ⟨8⟩, xApp⟩],
        [Event.pollLog "exited with code: 1"],
        some (Abort.spawnError "ENOENT")⟩ := by
  have h := (respawn_failure_fatal ⟨xCmd, some ⟨7⟩, xApp⟩
      ⟨.ok (some ⟨some 1, none⟩), .error "ENOENT"⟩
      [(⟨xCmd, some ⟨8⟩, xApp⟩, ⟨.ok none, .ok ⟨9⟩⟩)]
      (Abort.spawnError "ENOENT") (by decide)).1
  exact h.trans (by decide)

/-- C5: if any spec's spawn fails, or the stdout redirection file it
requests cannot be created, `start` never returns a handle list and `main`
aborts before the supervision loop begins: no partial-success mode. -/
theorem startup_failure_aborts (amb : String → Option String)
    (config : Config) (appEnvs : List AppEnv)
    (sched : List (Bool × List HandleEnv))
    (hbad : ∃ p ∈ config.apps.zip appEnvs, badAppEnv p.1 p.2) :
    (∀ hs evs, start amb (config.apps.zip appEnvs) ≠ .ok hs evs) ∧
    ∃ a evs, mainModel amb config appEnvs sched = .startFailed a evs := by
  have h1 := start_bad_not_ok amb _ hbad
  refine ⟨fun hs evs => h1 hs evs, ?_⟩
  unfold mainModel
  cases hst : start amb (config.apps.zip appEnvs) with
  | ok hs evs => exact absurd hst (h1 hs evs)
  | failed a evs => exact ⟨a, evs, rfl⟩

/-- C5 witness: a single app whose spawn fails with ENOENT. -/
theorem startup_failure_aborts_witness :
    ∃ a evs, mainModel (fun _ => none) ⟨none, [xApp]⟩
      [⟨Except.ok (), Except.error "ENOENT"⟩] [] = .startFailed a evs :=
  (startup_failure_aborts (fun _ => none) ⟨none, [xApp]⟩
    [⟨Except.ok (), Except.error "ENOENT"⟩] []
    ⟨(xApp, ⟨Except.ok (), Except.error "ENOENT"⟩), by simp,
      Or.inr ⟨"ENOENT", rfl⟩⟩).2

/-- C6: each env value has its shell-style variable references expanded
against the ambient environment before the child is spawned — the spawned
command's environment is exactly the expanded map, and `$HOME/bin` becomes
the ambient HOME value followed by `/bin`; a reference to an unset variable
aborts startup with the unwrap panic rather than substituting an empty
string. -/
theorem env_expansion (amb : String → Option String) (home : String)
    (hhome : amb "HOME" = some home) (app : App) (ae : AppEnv)
    (kvs : List (String × String)) (happ : app.env = some kvs) :
    expandEnv amb "$HOME/bin" = some (home ++ "/bin") ∧
    (∀ h ev, startApp amb app ae = .ok (h, ev) →
      expandPairs amb kvs = some h.command.envVars) ∧
    ∀ k v, (k, v) ∈ kvs → expandEnv amb v = none →
      (∀ h ev, startApp amb app ae ≠ .ok (h, ev)) ∧
      ((app.stdout = none ∨ ae.fileCreate = .ok ()) →
        ∃ m, startApp amb app ae = .error (.panic m)) := by
  refine ⟨?_, ?_, ?_⟩
  · show (match expandCharsF amb 10 "$HOME/bin".data with
          | none => none
          | some cs => some (String.mk cs)) = some (home ++ "/bin")
    have hstep : expandCharsF amb 10 "$HOME/bin".data =
        match amb "HOME" with
        | none => none
        | some v =>
          match expandCharsF amb 9 "/bin".data with
          | none => none
          | some tail => some (v.data ++ tail) := rfl
    have htail : expandCharsF amb 9 "/bin".data = some "/bin".data := rfl
    rw [hstep, hhome, htail]
    show some (String.mk (home.data ++ "/bin".data)) = some (home ++ "/bin")
    obtain ⟨hd⟩ := home
    rfl
  · intro h ev hok
    exact (startApp_ok_inv amb app ae h ev hok).2.2 kvs happ
  · intro k v hmem hfail
    have hpairs : expandPairs amb kvs = none :=
      expandPairs_none_of_mem amb kvs k v hmem hfail
    have hgate : envGate amb app = none := by
      rw [envGate, happ]
      exact hpairs
    constructor
    · intro h ev hok
      rw [(startApp_ok_inv amb app ae h ev hok).2.2 kvs happ] at hpairs
      cases hpairs
    · intro hso
      have hg : stdoutGate app ae = .ok () := by
        unfold stdoutGate
        cases hst : app.stdout with
        | none => rfl
        | some o =>
          rcases hso with hnone | hfc
          · rw [hnone] at hst
            cases hst
          · exact hfc
      exact ⟨"called Result::unwrap on an Err value: LookupError",
        by simp [startApp, hg, hgate]⟩

/-- C6 witness: HOME set to /home/u, an app whose env value is $HOME/bin. -/
theorem env_expansion_witness :
    expandEnv xAmb "$HOME/bin" = some ("/home/u" ++ "/bin") :=
  (env_expansion xAmb "/home/u" rfl xEnvApp xOkEnv [("P", "$HOME/bin")] rfl).1

/-- C9 counterexample: a handle re-spawned in this cycle holds a live child
(PID 9) at the end of its step, yet its status line reads "not running" —
the line reports the pre-restart poll result, not the resulting state
(which would read "running as PID: 9"). -/
theorem status_line_counterexample :
    (handleStep xApp xCmd (some ⟨7⟩)
      ⟨.ok (some ⟨some 1, none⟩), .ok ⟨9⟩⟩).child = some ⟨9⟩ ∧
    (handleStep xApp xCmd (some ⟨7⟩)
      ⟨.ok (some ⟨some 1, none⟩), .ok ⟨9⟩⟩).events =
      [Event.pollLog "exited with code: 1",
        Event.status "/bin/x not running"] ∧
    statusLine xCmd.program true (some ⟨9⟩) = "/bin/x running as PID: 9" :=
  ⟨by decide, by decide, by decide⟩

/-- C9 amended: each non-aborting handle step emits its poll logs followed
by exactly one status line per handle, in manifest order; the line shows
`running as PID` or `not running` according to the poll observation made
before the restart policy ran, so a handle re-spawned this cycle is
reported as "not running" despite holding a live process. -/
theorem status_line_spec (app : App) (command : CommandM)
    (child : Option Child) (henv : HandleEnv) (r b : Bool) (logs : List Event)
    (hp : pollChild child henv.tryWait = .ok (r, b, logs))
    (hok : (handleStep app command child henv).abort = none) :
    ((handleStep app command child henv).events =
      logs ++ [Event.status (statusLine command.program r
        (handleStep app command child henv).child)]) ∧
    ∀ pairs : List (Handle × HandleEnv),
      (pollHandles pairs).abort = none →
      ((pollHandles pairs).events.filter isStatus).length = pairs.length := by
  obtain ⟨r2, b2, logs2, hp2, hev⟩ := handleStep_ok_events app command child henv hok
  have heq := hp.symm.trans hp2
  simp only [Except.ok.injEq] at heq
  obtain ⟨rfl, rfl, rfl⟩ := heq
  exact ⟨hev, fun pairs h2 => pollHandles_status_count pairs h2⟩

/-- C9 witness: a still-running handle emits exactly its status line. -/
theorem status_line_spec_witness :
    (handleStep xApp xCmd (some ⟨7⟩) ⟨.ok none, .ok ⟨9⟩⟩).events =
      [] ++ [Event.status (statusLine xCmd.program true
        (handleStep xApp xCmd (some ⟨7⟩) ⟨.ok none, .ok ⟨9⟩⟩).child)] :=
  (status_line_spec xApp xCmd (some ⟨7⟩) ⟨.ok none, .ok ⟨9⟩⟩ true false []
    rfl rfl).1

end Spawner
